import Mathlib

/-!
Verification of the ofxAI behaviour-tree engine (src/ofxBehaviourTree.{h,cpp}),
its bytecode VM (src/ofxBehaviourTreeVM.{h,cpp}) and the utility-AI selector
(src/ofxUtilityAI.{h,cpp}) against the natural-language specification.

Modelling conventions, shared by all definitions below:
  * a composite node's children are modelled by the outcome each child's
    `tick` would produce when it is reached in the current tick; an absent
    (null) child is `Option.none`.  Each composite tick returns the outcome
    together with the number of children actually ticked, so that the
    short-circuit ("children after i are not ticked") facts are statable;
  * where the C++ would dereference a null pointer, the model returns
    `Option.none` at the outer level (a crash, distinct from every Status);
  * the reference-resolution recursion of `Blackboard::getFactRef` is not
    structurally terminating in the source (a scope variable can expand to
    an arbitrary token), so the model takes a fuel argument; running out of
    fuel is reported as the outer `Option.none`, distinct from the source's
    `return false`.
-/

namespace OfxAI

namespace BehaviourTree

/-- Outcome enumeration of ofxBehaviourTree.h lines 11-16 (`enum class Status`).
`Status()` value-initialises to the first enumerator, `Invalid`. -/
inductive Status where
  | Invalid
  | Success
  | Failure
  | Running
deriving DecidableEq, Repr

/-- Loop body of `SequenceNode::tick` (ofxBehaviourTree.cpp lines 103-110):
tick each child in order, a null child gives `Invalid`, a non-`Success`
outcome is returned at once, after the loop `Success`.  The second component
counts the children actually ticked. -/
def seqTickAux : List (Option Status) → Status × Nat
  | [] => (Status.Success, 0)
  | none :: _ => (Status.Invalid, 0)
  | some s :: rest =>
    if s ≠ Status.Success then (s, 1)
    else
      let r := seqTickAux rest
      (r.1, r.2 + 1)

/-- `SequenceNode::tick` (ofxBehaviourTree.cpp lines 99-111): empty child
list gives `Invalid`, else the loop above. -/
def SequenceNode.tick (children : List (Option Status)) : Status × Nat :=
  if children = [] then (Status.Invalid, 0) else seqTickAux children

/-- Loop body of `SelectorNode::tick` (ofxBehaviourTree.cpp lines 82-89):
tick each child in order, a null child gives `Invalid`, a non-`Failure`
outcome is returned at once; after the loop the source returns
`Status::Success` (line 89) although its own documenting comment says the
all-`Failure` case yields `Failure`. -/
def selTickAux : List (Option Status) → Status × Nat
  | [] => (Status.Success, 0)
  | none :: _ => (Status.Invalid, 0)
  | some s :: rest =>
    if s ≠ Status.Failure then (s, 1)
    else
      let r := selTickAux rest
      (r.1, r.2 + 1)

/-- `SelectorNode::tick` (ofxBehaviourTree.cpp lines 78-90). -/
def SelectorNode.tick (children : List (Option Status)) : Status × Nat :=
  if children = [] then (Status.Invalid, 0) else selTickAux children

/-- `ParallelNode::tick` (ofxBehaviourTree.cpp lines 126-129) is a stub: the
body is `return Status();`, which value-initialises to `Status::Invalid`,
and no child is ever ticked. -/
def ParallelNode.tick (_threshold : Nat) (_children : List (Option Status)) :
    Status × Nat :=
  (Status.Invalid, 0)

/-- Loop body of `RepeatWhileSuccessfulNode::tick` (ofxBehaviourTree.cpp
lines 210-214): unlike `SequenceNode::tick` it performs no null check on a
child before calling `child->tick`, so a null child is dereferenced; the
outer `none` models that crash.  All-`Success` runs end in `Running`. -/
def rwsAux : List (Option Status) → Option (Status × Nat)
  | [] => some (Status.Running, 0)
  | none :: _ => none
  | some s :: rest =>
    if s ≠ Status.Success then some (s, 1)
    else (rwsAux rest).map (fun r => (r.1, r.2 + 1))

/-- `RepeatWhileSuccessfulNode::tick` (ofxBehaviourTree.cpp lines 207-216):
empty child list gives `Invalid`, else the unguarded loop above. -/
def RepeatWhileSuccessfulNode.tick (children : List (Option Status)) :
    Option (Status × Nat) :=
  if children = [] then some (Status.Invalid, 0) else rwsAux children

/-- Loop body of `RepeatWhileFailureNode::tick` (ofxBehaviourTree.cpp lines
226-230); again no null check before `child->tick`. -/
def rwfAux : List (Option Status) → Option (Status × Nat)
  | [] => some (Status.Running, 0)
  | none :: _ => none
  | some s :: rest =>
    if s ≠ Status.Failure then some (s, 1)
    else (rwfAux rest).map (fun r => (r.1, r.2 + 1))

/-- `RepeatWhileFailureNode::tick` (ofxBehaviourTree.cpp lines 223-232). -/
def RepeatWhileFailureNode.tick (children : List (Option Status)) :
    Option (Status × Nat) :=
  if children = [] then some (Status.Invalid, 0) else rwfAux children

/-- Loop of `RepeatDecoratorNode::tick` (ofxBehaviourTree.cpp lines 190-195):
`child` gives the outcome of the k-th call of `m_child->tick` in this tick,
the first Nat argument is the number of calls already made, the Status
argument is the running `status` variable, the last argument the remaining
iteration count.  Returns the final `status` and the number of calls made. -/
def repeatLoop (child : Nat → Status) : Nat → Status → Nat → Status × Nat
  | k, status, 0 => (status, k)
  | k, _, Nat.succ m =>
    let s := child k
    if s = Status.Running ∨ s = Status.Invalid then (s, k + 1)
    else repeatLoop child (k + 1) s m

/-- `RepeatDecoratorNode::tick` (ofxBehaviourTree.cpp lines 186-197):
`status` starts `Invalid`, a missing child returns it at once, else the loop
runs `loopCount` times. -/
def RepeatDecoratorNode.tick (loopCount : Nat) (child : Option (Nat → Status)) :
    Status × Nat :=
  match child with
  | none => (Status.Invalid, 0)
  | some c => repeatLoop c 0 Status.Invalid loopCount

/-- Strategy-scan loop of `DecisionNode::tick` (ofxBehaviourTree.cpp lines
352-364), run when no strategy is latched.  Each strategy is the pair of the
outcomes its condition node and its action node would produce when ticked in
this call; the Nat argument is the index of the first strategy of the list.
Returns (result, new latch, indices whose condition was ticked, indices
whose action was ticked).  A `Success` condition ticks the action, latches
it when the action returns `Running`, and stops the scan; a `Failure`
condition moves on; any other condition outcome is returned at once.  An
exhausted scan leaves the initial `result = Invalid` (line 343). -/
def decisionScanLoop :
    List (Status × Status) → Nat → Status × Option Nat × List Nat × List Nat
  | [], _ => (Status.Invalid, none, [], [])
  | (c, a) :: rest, i =>
    if c = Status.Success then
      (a, if a = Status.Running then some i else none, [i], [i])
    else if c = Status.Failure then
      let r := decisionScanLoop rest (i + 1)
      (r.1, r.2.1, i :: r.2.2.1, r.2.2.2)
    else
      (c, none, [i], [])

/-- `DecisionNode::tick` (ofxBehaviourTree.cpp lines 342-367) with the latch
(`m_current`) made explicit: `cur = some i` means strategy i is latched.  A
latched tick runs only that strategy's action and clears the latch unless
the action returns `Running` (lines 344-350); an unlatched tick scans the
strategies.  The result carries the new latch and the traces of ticked
conditions and actions. -/
def DecisionNode.tick (strategies : List (Status × Status)) (cur : Option Nat) :
    Status × Option Nat × List Nat × List Nat :=
  match cur with
  | some i =>
    let a := (strategies.getD i (Status.Invalid, Status.Invalid)).2
    (a, if a = Status.Running then some i else none, [], [i])
  | none => decisionScanLoop strategies 0

/-- `Blackboard::getFactRef` (ofxBehaviourTree.cpp lines 514-542), over
tokens as character lists.  `gf` is the fact store's `getFact`, `sv` the
tree's `getScopedVar` (with a null tree folded into `sv = fun _ => none`).
The result is `none` when the fuel runs out (the source recursion has no
depth bound), `some none` when the source returns `false`, and
`some (some v)` when it returns `true` with `result = v`.  The list in the
second component records, in order, every name passed to `getFact`. -/
def getFactRefT (gf sv : List Char → Option (List Char)) :
    Nat → List Char → Option (Option (List Char)) × List (List Char)
  | 0, _ => (none, [])
  | Nat.succ n, name =>
    match name with
    | [] => (some none, [])
    | c :: rest =>
      if c = '#' then
        match sv rest with
        | none => (some none, [])
        | some temp => getFactRefT gf sv n temp
      else if c = '@' then
        match getFactRefT gf sv n rest with
        | (none, trail) => (none, trail)
        | (some none, trail) => (some none, trail)
        | (some (some temp), trail) =>
          match gf temp with
          | none => (some none, trail ++ [temp])
          | some v => (some (some v), trail ++ [temp])
      else (some (some (c :: rest)), [])

/-- A scope frame: `NodeScope::m_values` as an association list. -/
def Frame : Type := List (List Char × List Char)

/-- `NodeScope::getScopeVar` (ofxBehaviourTree.cpp lines 544-550):
first-match lookup in the frame. -/
def NodeScope.getScopeVar : Frame → List Char → Option (List Char)
  | [], _ => none
  | p :: rest, key => if p.1 = key then some p.2 else NodeScope.getScopeVar rest key

/-- `Tree::getScopedVar` (ofxBehaviourTree.cpp lines 471-475): empty scope
stack fails, else look only in the topmost frame. -/
def Tree.getScopedVar (stack : List Frame) (v : List Char) : Option (List Char) :=
  match stack with
  | [] => none
  | top :: _ => NodeScope.getScopeVar top v

/-- Parameter-resolution loop of `ScopeNode::tick` (ofxBehaviourTree.cpp
lines 309-315): resolve each configured (name, reference) pair with
`getFactRef`; the first failing reference aborts with `some none` (the node
will return `Invalid`), fuel exhaustion with `none`, else the resolved
frame is produced. -/
def resolveParams (gf sv : List Char → Option (List Char)) (fuel : Nat) :
    List (List Char × List Char) → Option (Option Frame)
  | [] => some (some [])
  | (name, ref) :: rest =>
    match (getFactRefT gf sv fuel ref).1 with
    | none => none
    | some none => some none
    | some (some v) =>
      match resolveParams gf sv fuel rest with
      | none => none
      | some none => some none
      | some (some f) => some (some ((name, v) :: f))

/-- `ScopeNode::tick` (ofxBehaviourTree.cpp lines 306-320) with the tree's
scope stack made explicit.  Parameters are resolved against the stack as it
stands; a failed resolution returns `Invalid` and leaves the stack alone;
otherwise one frame is pushed (line 316), the child's tick runs on the new
stack, and the top of the resulting stack is popped (line 318) whatever the
child's outcome was. -/
def ScopeNode.tick (gf : List Char → Option (List Char)) (fuel : Nat)
    (params : List (List Char × List Char))
    (child : List Frame → Status × List Frame)
    (stack : List Frame) : Option (Status × List Frame) :=
  match resolveParams gf (Tree.getScopedVar stack) fuel params with
  | none => none
  | some none => some (Status.Invalid, stack)
  | some (some f) =>
    let r := child (f :: stack)
    some (r.1, r.2.tail)

end BehaviourTree

namespace BTVM

/-- VM outcome enumeration of ofxBehaviourTreeVM.h lines 12-18. -/
inductive VMStatus where
  | Invalid
  | Success
  | Failure
  | Running
  | Suspended
deriving DecidableEq, Repr

/-- VM thread state (ofxBehaviourTreeVM.h lines 32-38): program counter
(`off_t`, signed), thread start offset, last-computed outcome. -/
structure VMThread where
  pc : Int
  threadStart : Nat
  current : VMStatus
deriving DecidableEq, Repr

/-- The VM's `DictBlackboard` (ofxBehaviourTreeVM.h lines 20-28). -/
structure VMBlackboard where
  board : List (String × String)

/-- `DictBlackboard::hasFact` (ofxBehaviourTreeVM.cpp lines 150-152). -/
def VMBlackboard.hasFact (b : VMBlackboard) (fact : String) : Bool :=
  b.board.any (fun p => p.1 == fact)

/-- `DictBlackboard::removeFact` (ofxBehaviourTreeVM.cpp lines 161-163). -/
def VMBlackboard.removeFact (b : VMBlackboard) (fact : String) : VMBlackboard :=
  ⟨b.board.filter (fun p => !(p.1 == fact))⟩

/-- The VM with its program: `BehaviorTreeVM` (ofxBehaviourTreeVM.h lines
43-52) holding the shared `BehaviorTreeVMProgram` (instruction stream of
16-bit cells, the leaf table and the string table), the blackboard and the
thread vector.  A leaf callable is modelled as a function of the blackboard
returning its outcome and the updated blackboard. -/
structure BehaviorTreeVM where
  program : List Int
  leaves : List (VMBlackboard → VMStatus × VMBlackboard)
  stringTable : List String
  blackboard : VMBlackboard
  threads : List VMThread

/-- Read an instruction cell; a negative or out-of-range index is the
vector-subscript undefined behaviour, modelled `none`. -/
def vmFetch (prog : List Int) (i : Int) : Option Int :=
  if i < 0 then none else prog.get? i.toNat

/-- Read the string table at a (signed) position, as
`m_stringTable[thread->m_pc + 1]` does. -/
def stringAt (tbl : List String) (i : Int) : Option String :=
  if i < 0 then none else tbl.get? i.toNat

/-- Replace thread `tid` of the VM. -/
def setThreadAt (vm : BehaviorTreeVM) (tid : Nat) (t : VMThread) : BehaviorTreeVM :=
  { vm with threads := vm.threads.set tid t }

/-- `BehaviorTreeVMProgram::eval` (ofxBehaviourTreeVM.cpp lines 45-135) for
the thread at index `tid` of `vm.threads`.  Faithful points: the first
statement `thread->m_current = Status::Invalid;` (line 48) clears the
thread's outcome before the opcode is even read; `run` (opcode 0) and
`run_dec` (opcode 2) both index `m_leaves`, advance `pc` by 2 and return
`Running` when the leaf's outcome is `Failure`/`Success`/`Running`, else
return the outcome with `pc` unmoved; `run_thr` (1) recursively evaluates
another thread, copies its `current`, advances on non-`Invalid`; `bra_f` (3)
and `bra_t` (4) add the signed operand to `pc` when `current` matches, else
skip the pair; 5/6 set `Failure`/`Success`; 7 negates; `chk_fact` (8) and
`rm_fact` (9) index the string table at `pc + 1` exactly as the source does;
any other opcode returns `Invalid`.  Undefined behaviour (out-of-range
subscripts, missing thread) and fuel exhaustion (only reachable through
`run_thr` recursion) are `none`.  The trace lists the leaf-table indices
invoked during the call. -/
def progEval :
    Nat → BehaviorTreeVM → Nat → Option (VMStatus × BehaviorTreeVM × List Nat)
  | 0, _, _ => none
  | Nat.succ fuel, vm0, tid =>
    match vm0.threads.get? tid with
    | none => none
    | some th0 =>
      let th := { th0 with current := VMStatus.Invalid }
      let vm := setThreadAt vm0 tid th
      match vmFetch vm.program th.pc with
      | none => none
      | some op =>
        if op = 0 ∨ op = 2 then
          match vmFetch vm.program (th.pc + 1) with
          | none => none
          | some idx =>
            if idx < 0 then none
            else
              match vm.leaves.get? idx.toNat with
              | none => none
              | some leaf =>
                let r := leaf vm.blackboard
                let vm1 := { vm with blackboard := r.2 }
                if r.1 = VMStatus.Failure ∨ r.1 = VMStatus.Success ∨
                    r.1 = VMStatus.Running then
                  some (VMStatus.Running,
                    setThreadAt vm1 tid { th with current := r.1, pc := th.pc + 2 },
                    [idx.toNat])
                else
                  some (r.1, setThreadAt vm1 tid { th with current := r.1 },
                    [idx.toNat])
        else if op = 1 then
          match vmFetch vm.program (th.pc + 1) with
          | none => none
          | some idx =>
            if idx < 0 then none
            else
              match progEval fuel vm idx.toNat with
              | none => none
              | some (_, vm2, trail) =>
                match vm2.threads.get? idx.toNat, vm2.threads.get? tid with
                | some other, some me =>
                  let me1 := { me with current := other.current }
                  if me1.current ≠ VMStatus.Invalid then
                    some (VMStatus.Running,
                      setThreadAt vm2 tid { me1 with pc := me1.pc + 2 }, trail)
                  else
                    some (VMStatus.Invalid, setThreadAt vm2 tid me1, trail)
                | _, _ => none
        else if op = 3 then
          if th.current = VMStatus.Failure then
            match vmFetch vm.program (th.pc + 1) with
            | none => none
            | some off =>
              some (VMStatus.Running, setThreadAt vm tid { th with pc := th.pc + off },
                [])
          else
            some (VMStatus.Running, setThreadAt vm tid { th with pc := th.pc + 2 }, [])
        else if op = 4 then
          if th.current = VMStatus.Success then
            match vmFetch vm.program (th.pc + 1) with
            | none => none
            | some off =>
              some (VMStatus.Running, setThreadAt vm tid { th with pc := th.pc + off },
                [])
          else
            some (VMStatus.Running, setThreadAt vm tid { th with pc := th.pc + 2 }, [])
        else if op = 5 then
          some (VMStatus.Running,
            setThreadAt vm tid { th with current := VMStatus.Failure, pc := th.pc + 1 },
            [])
        else if op = 6 then
          some (VMStatus.Running,
            setThreadAt vm tid { th with current := VMStatus.Success, pc := th.pc + 1 },
            [])
        else if op = 7 then
          let c :=
            if th.current = VMStatus.Failure then VMStatus.Success
            else if th.current = VMStatus.Success then VMStatus.Failure
            else th.current
          some (VMStatus.Running,
            setThreadAt vm tid { th with current := c, pc := th.pc + 1 }, [])
        else if op = 8 then
          match stringAt vm.stringTable (th.pc + 1) with
          | none => none
          | some s =>
            let c :=
              if vm.blackboard.hasFact s then VMStatus.Success else VMStatus.Failure
            some (VMStatus.Running,
              setThreadAt vm tid { th with current := c, pc := th.pc + 2 }, [])
        else if op = 9 then
          match stringAt vm.stringTable (th.pc + 1) with
          | none => none
          | some s =>
            some (VMStatus.Running,
              { setThreadAt vm tid
                  { th with current := VMStatus.Success, pc := th.pc + 2 } with
                  blackboard := vm.blackboard.removeFact s }, [])
        else
          some (VMStatus.Invalid, vm, [])

/-- `BehaviorTreeVMThread::step` (ofxBehaviourTreeVM.cpp lines 139-143):
one `eval` call on the given thread; the fuel only matters to `run_thr`
chains, one suffices for any other instruction. -/
def VMThread.step (fuel : Nat) (vm : BehaviorTreeVM) (tid : Nat) :
    Option (VMStatus × BehaviorTreeVM × List Nat) :=
  progEval fuel vm tid

end BTVM

namespace UtilityAI

/-- `Qualifier::Type` (ofxUtilityAI.h lines 39-45). -/
inductive QualifierType where
  | DefaultAction
  | FixedScore
  | AllOrNothing
  | SumOfChildren
  | SumWhileAboveThreshold
deriving DecidableEq, Repr

/-- A `Scorer` (ofxUtilityAI.h lines 11-34): the condition's and the score
callable's values at this evaluation.  Scores are modelled over ℤ (exact
arithmetic in place of `float`); the selection logic only compares and adds
them. -/
structure Scorer where
  condition : Bool
  score : Int
deriving DecidableEq, Repr

/-- A `Qualifier` (ofxUtilityAI.h lines 38-79). -/
structure Qualifier where
  qtype : QualifierType
  threshold : Int
  scorers : List Scorer
deriving DecidableEq, Repr

/-- `AllOrNothing` arm of `Qualifier::score` (ofxUtilityAI.cpp lines 27-36):
the first false condition returns 0 outright, else the scores accumulate. -/
def allOrNothingLoop : List Scorer → Int → Int
  | [], sum => sum
  | sc :: rest, sum =>
    if sc.condition then allOrNothingLoop rest (sum + sc.score) else 0

/-- `SumWhileAboveThreshold` arm of `Qualifier::score` (ofxUtilityAI.cpp
lines 46-58): a passing scorer whose score is below the threshold returns
the sum so far; otherwise it accumulates. -/
def sumWhileLoop (t : Int) : List Scorer → Int → Int
  | [], sum => sum
  | sc :: rest, sum =>
    if sc.condition then
      if sc.score < t then sum else sumWhileLoop t rest (sum + sc.score)
    else sumWhileLoop t rest sum

/-- `Qualifier::score` (ofxUtilityAI.cpp lines 22-62). -/
def Qualifier.score (q : Qualifier) : Int :=
  match q.qtype with
  | QualifierType.DefaultAction => q.threshold
  | QualifierType.FixedScore => q.threshold
  | QualifierType.AllOrNothing => allOrNothingLoop q.scorers 0
  | QualifierType.SumOfChildren =>
    q.scorers.foldl (fun sum sc => if sc.condition then sum + sc.score else sum) 0
  | QualifierType.SumWhileAboveThreshold => sumWhileLoop q.threshold q.scorers 0

/-- A utility-AI `Selector` (ofxUtilityAI.h lines 82-94): the qualifiers
with their actions, and the default pair.  Actions are abstract values of
type α (the C++ invokes a `std::function<void()>`). -/
structure Selector (α : Type) where
  qualifiers : List (Qualifier × α)
  defaultAction : Qualifier × α

/-- Scan loop of `Selector::eval` (ofxUtilityAI.cpp lines 11-17): walk the
qualifier/action pairs in order carrying (index of the chosen pair — `none`
for the default —, the chosen pair, the best score); a pair replaces the
choice only when its score strictly exceeds the best.  The Nat argument is
the index of the list's first pair. -/
def selScan {α : Type} :
    List (Qualifier × α) → Nat → Option Nat → Qualifier × α → Int →
      Option Nat × (Qualifier × α) × Int
  | [], _, chIdx, chosen, best => (chIdx, chosen, best)
  | p :: rest, i, chIdx, chosen, best =>
    if best < p.1.score then selScan rest (i + 1) (some i) p p.1.score
    else selScan rest (i + 1) chIdx chosen best

/-- Index component of `Selector::eval`'s scan, starting from the default
action and its qualifier's threshold (ofxUtilityAI.cpp lines 7-8): `none`
when the default pair is still chosen. -/
def Selector.evalChosenIdx {α : Type} (s : Selector α) : Option Nat :=
  (selScan s.qualifiers 0 none s.defaultAction s.defaultAction.1.threshold).1

/-- The action `Selector::eval` performs (ofxUtilityAI.cpp line 19:
`chosen->second()`). -/
def Selector.eval {α : Type} (s : Selector α) : α :=
  (selScan s.qualifiers 0 none s.defaultAction s.defaultAction.1.threshold).2.1.2

/-- The actions `Selector::eval` invokes during one evaluation: exactly the
one call `chosen->second()` after the scan. -/
def Selector.evalInvoked {α : Type} (s : Selector α) : List α :=
  [s.eval]

end UtilityAI

end OfxAI

namespace OfxAI.BehaviourTree

theorem seqTickAux_all_success :
    ∀ l : List (Option Status), (∀ c ∈ l, c = some Status.Success) →
      seqTickAux l = (Status.Success, l.length) := by
  intro l
  induction l with
  | nil => intro _; rfl
  | cons c rest ih =>
    intro h
    have hc : c = some Status.Success := h c (List.mem_cons_self c rest)
    subst hc
    simp [seqTickAux, ih (fun x hx => h x (List.mem_cons_of_mem _ hx))]

theorem seqTickAux_first_non_success (s : Status) (hs : s ≠ Status.Success) :
    ∀ l₁ l₂ : List (Option Status), (∀ c ∈ l₁, c = some Status.Success) →
      seqTickAux (l₁ ++ some s :: l₂) = (s, l₁.length + 1) := by
  intro l₁
  induction l₁ with
  | nil => intro l₂ _; simp [seqTickAux, hs]
  | cons c rest ih =>
    intro l₂ h
    have hc : c = some Status.Success := h c (List.mem_cons_self c rest)
    subst hc
    simp [seqTickAux, ih l₂ (fun x hx => h x (List.mem_cons_of_mem _ hx))]

theorem seqTickAux_null_after_success :
    ∀ l₁ l₂ : List (Option Status), (∀ c ∈ l₁, c = some Status.Success) →
      seqTickAux (l₁ ++ none :: l₂) = (Status.Invalid, l₁.length) := by
  intro l₁
  induction l₁ with
  | nil => intro l₂ _; rfl
  | cons c rest ih =>
    intro l₂ h
    have hc : c = some Status.Success := h c (List.mem_cons_self c rest)
    subst hc
    simp [seqTickAux, ih l₂ (fun x hx => h x (List.mem_cons_of_mem _ hx))]

theorem selTickAux_null_after_failure :
    ∀ l₁ l₂ : List (Option Status), (∀ c ∈ l₁, c = some Status.Failure) →
      selTickAux (l₁ ++ none :: l₂) = (Status.Invalid, l₁.length) := by
  intro l₁
  induction l₁ with
  | nil => intro l₂ _; rfl
  | cons c rest ih =>
    intro l₂ h
    have hc : c = some Status.Failure := h c (List.mem_cons_self c rest)
    subst hc
    simp [selTickAux, ih l₂ (fun x hx => h x (List.mem_cons_of_mem _ hx))]

theorem selTickAux_first_non_failure (s : Status) (hs : s ≠ Status.Failure) :
    ∀ l₁ l₂ : List (Option Status), (∀ c ∈ l₁, c = some Status.Failure) →
      selTickAux (l₁ ++ some s :: l₂) = (s, l₁.length + 1) := by
  intro l₁
  induction l₁ with
  | nil => intro l₂ _; simp [selTickAux, hs]
  | cons c rest ih =>
    intro l₂ h
    have hc : c = some Status.Failure := h c (List.mem_cons_self c rest)
    subst hc
    simp [selTickAux, ih l₂ (fun x hx => h x (List.mem_cons_of_mem _ hx))]

theorem rwsAux_null_after_success :
    ∀ l₁ l₂ : List (Option Status), (∀ c ∈ l₁, c = some Status.Success) →
      rwsAux (l₁ ++ none :: l₂) = none := by
  intro l₁
  induction l₁ with
  | nil => intro l₂ _; rfl
  | cons c rest ih =>
    intro l₂ h
    have hc : c = some Status.Success := h c (List.mem_cons_self c rest)
    subst hc
    simp [rwsAux, ih l₂ (fun x hx => h x (List.mem_cons_of_mem _ hx))]

theorem rwfAux_null_after_failure :
    ∀ l₁ l₂ : List (Option Status), (∀ c ∈ l₁, c = some Status.Failure) →
      rwfAux (l₁ ++ none :: l₂) = none := by
  intro l₁
  induction l₁ with
  | nil => intro l₂ _; rfl
  | cons c rest ih =>
    intro l₂ h
    have hc : c = some Status.Failure := h c (List.mem_cons_self c rest)
    subst hc
    simp [rwfAux, ih l₂ (fun x hx => h x (List.mem_cons_of_mem _ hx))]

/-- C1: for a Sequence node with a non-empty child list, if every child's
tick returns `Success` then the Sequence's tick returns `Success`; and if
the children before index i all return `Success` while child i returns an
outcome s other than `Success`, the tick returns exactly s and ticks
exactly i+1 children, so no child after i is ticked. -/
theorem sequence_tick_claim (children : List (Option Status)) :
    (children ≠ [] → (∀ c ∈ children, c = some Status.Success) →
      SequenceNode.tick children = (Status.Success, children.length))
    ∧ (∀ (l₁ : List (Option Status)) (s : Status) (l₂ : List (Option Status)),
        children = l₁ ++ some s :: l₂ →
        (∀ c ∈ l₁, c = some Status.Success) → s ≠ Status.Success →
        SequenceNode.tick children = (s, l₁.length + 1)) := by
  constructor
  · intro hne hall
    unfold SequenceNode.tick
    rw [if_neg hne]
    exact seqTickAux_all_success children hall
  · intro l₁ s l₂ hsplit hall hs
    subst hsplit
    unfold SequenceNode.tick
    rw [if_neg (by simp)]
    exact seqTickAux_first_non_success s hs l₁ l₂ hall

/-- C1 witness: a Sequence over two `Success` children returns `Success`
having ticked both; a Sequence over `[Success, Failure, Running]` returns
`Failure` having ticked exactly two children. -/
theorem sequence_tick_claim_witness :
    SequenceNode.tick [some Status.Success, some Status.Success]
      = (Status.Success, 2)
    ∧ SequenceNode.tick [some Status.Success, some Status.Failure, some Status.Running]
      = (Status.Failure, 2) :=
  ⟨(sequence_tick_claim [some Status.Success, some Status.Success]).1
      (by decide) (by decide),
   (sequence_tick_claim
      [some Status.Success, some Status.Failure, some Status.Running]).2
      [some Status.Success] Status.Failure [some Status.Running]
      rfl (by decide) (by decide)⟩

/-- C2: evaluation of `SelectorNode::tick` at two children that both return
`Failure`.  The source falls out of the loop and executes
`return Status::Success;` (ofxBehaviourTree.cpp line 89), so the all-`Failure`
Selector returns `Success`, where the claim — and the node's own documenting
comment, ofxBehaviourTree.h lines 103-108 — require `Failure`. -/
theorem selector_all_failure_returns_success :
    SelectorNode.tick [some Status.Failure, some Status.Failure]
      = (Status.Success, 2) := by decide

/-- C3: evaluation of `ParallelNode::tick` at the claim's example, children
ticking `[Success, Success, Failure]` with success threshold 2.  The source
body is only `return Status();` (ofxBehaviourTree.cpp line 128), so the node
returns `Invalid` without ticking any child, where the claim — and the
node's own documenting comment, ofxBehaviourTree.h lines 120-127 — require
all three children ticked and outcome `Success`. -/
theorem parallel_stub_ticks_nothing :
    ParallelNode.tick 2
        [some Status.Success, some Status.Success, some Status.Failure]
      = (Status.Invalid, 0)
    ∧ (Status.Invalid, (0 : Nat)) ≠ (Status.Success, (3 : Nat)) := by decide

/-- C7 counterexample: `RepeatWhileSuccessfulNode::tick` and
`RepeatWhileFailureNode::tick` on the child list `[null]`.  Their loops
(ofxBehaviourTree.cpp lines 210-214 and 226-230) have no null check, so the
null child is dereferenced (the model's `none`, a crash) instead of the
`Invalid` return the claim states for a composite that reaches an absent
child. -/
theorem repeat_while_null_child_crash :
    RepeatWhileSuccessfulNode.tick [none] = none
    ∧ RepeatWhileFailureNode.tick [none] = none := by decide

/-- C7 (amended): Sequence and Selector ticks return `Invalid` when the
child list is empty, and when the first reached child is absent they return
`Invalid` without ticking it; the repeat-while variants return `Invalid`
when the child list is empty, but perform no absence check on a reached
child — an absent child there is dereferenced (the model's `none`). -/
theorem composite_invalid_guard_claim :
    (SequenceNode.tick [] = (Status.Invalid, 0)
      ∧ SelectorNode.tick [] = (Status.Invalid, 0)
      ∧ RepeatWhileSuccessfulNode.tick [] = some (Status.Invalid, 0)
      ∧ RepeatWhileFailureNode.tick [] = some (Status.Invalid, 0))
    ∧ (∀ l₁ l₂ : List (Option Status), (∀ c ∈ l₁, c = some Status.Success) →
        SequenceNode.tick (l₁ ++ none :: l₂) = (Status.Invalid, l₁.length))
    ∧ (∀ l₁ l₂ : List (Option Status), (∀ c ∈ l₁, c = some Status.Failure) →
        SelectorNode.tick (l₁ ++ none :: l₂) = (Status.Invalid, l₁.length))
    ∧ (∀ l₁ l₂ : List (Option Status), (∀ c ∈ l₁, c = some Status.Success) →
        RepeatWhileSuccessfulNode.tick (l₁ ++ none :: l₂) = none)
    ∧ (∀ l₁ l₂ : List (Option Status), (∀ c ∈ l₁, c = some Status.Failure) →
        RepeatWhileFailureNode.tick (l₁ ++ none :: l₂) = none) := by
  refine ⟨by decide, ?_, ?_, ?_, ?_⟩
  · intro l₁ l₂ h
    unfold SequenceNode.tick
    rw [if_neg (by simp)]
    exact seqTickAux_null_after_success l₁ l₂ h
  · intro l₁ l₂ h
    unfold SelectorNode.tick
    rw [if_neg (by simp)]
    exact selTickAux_null_after_failure l₁ l₂ h
  · intro l₁ l₂ h
    unfold RepeatWhileSuccessfulNode.tick
    rw [if_neg (by simp)]
    exact rwsAux_null_after_success l₁ l₂ h
  · intro l₁ l₂ h
    unfold RepeatWhileFailureNode.tick
    rw [if_neg (by simp)]
    exact rwfAux_null_after_failure l₁ l₂ h

/-- C7 witness: concrete instances of the amended claim — a Sequence whose
second child is absent returns `Invalid` after ticking one child, while a
repeat-while-failure composite whose second child is absent crashes. -/
theorem composite_invalid_guard_claim_witness :
    SequenceNode.tick [some Status.Success, none] = (Status.Invalid, 1)
    ∧ RepeatWhileFailureNode.tick [some Status.Failure, none] = none :=
  ⟨composite_invalid_guard_claim.2.1 [some Status.Success] [] (by decide),
   composite_invalid_guard_claim.2.2.2.2 [some Status.Failure] [] (by decide)⟩

theorem repeatLoop_count_le (child : Nat → Status) :
    ∀ (m k : Nat) (st : Status), (repeatLoop child k st m).2 ≤ k + m := by
  intro m
  induction m with
  | zero => intro k st; simp [repeatLoop]
  | succ m ih =>
    intro k st
    simp only [repeatLoop]
    by_cases hbad : child k = Status.Running ∨ child k = Status.Invalid
    · rw [if_pos hbad]
      show k + 1 ≤ k + (m + 1)
      omega
    · rw [if_neg hbad]
      exact le_trans (ih (k + 1) (child k)) (by omega)

theorem repeatLoop_first_bad (child : Nat → Status) :
    ∀ (i m k : Nat) (st : Status), i < m →
      (child (k + i) = Status.Running ∨ child (k + i) = Status.Invalid) →
      (∀ j, j < i →
        ¬(child (k + j) = Status.Running ∨ child (k + j) = Status.Invalid)) →
      repeatLoop child k st m = (child (k + i), k + i + 1) := by
  intro i
  induction i with
  | zero =>
    intro m k st hm hbad _
    cases m with
    | zero => omega
    | succ m =>
      simp only [repeatLoop]
      rw [if_pos (by simpa using hbad)]
      simp
  | succ i ih =>
    intro m k st hm hbad hgood
    cases m with
    | zero => omega
    | succ m =>
      have h0 : ¬(child k = Status.Running ∨ child k = Status.Invalid) := by
        simpa using hgood 0 (Nat.succ_pos i)
      simp only [repeatLoop]
      rw [if_neg h0]
      have step := ih m (k + 1) (child k) (by omega)
        (by
          have e : k + 1 + i = k + (i + 1) := by omega
          rw [e]; exact hbad)
        (by
          intro j hj
          have e : k + 1 + j = k + (j + 1) := by omega
          rw [e]; exact hgood (j + 1) (by omega))
      rw [step]
      have e : k + 1 + i = k + (i + 1) := by omega
      rw [e]

theorem repeatLoop_all_good (child : Nat → Status) :
    ∀ (m k : Nat) (st : Status), 1 ≤ m →
      (∀ j, j < m →
        ¬(child (k + j) = Status.Running ∨ child (k + j) = Status.Invalid)) →
      repeatLoop child k st m = (child (k + m - 1), k + m) := by
  intro m
  induction m with
  | zero => intro k st h _; omega
  | succ m ih =>
    intro k st _ hgood
    have h0 : ¬(child k = Status.Running ∨ child k = Status.Invalid) := by
      simpa using hgood 0 (Nat.succ_pos m)
    simp only [repeatLoop]
    rw [if_neg h0]
    rcases Nat.eq_zero_or_pos m with hm | hm
    · subst hm
      simp [repeatLoop]
    · have hg : ∀ j, j < m →
          ¬(child (k + 1 + j) = Status.Running ∨ child (k + 1 + j) = Status.Invalid) := by
        intro j hj
        have e : k + 1 + j = k + (j + 1) := by omega
        rw [e]
        exact hgood (j + 1) (by omega)
      rw [ih (k + 1) (child k) hm hg]
      have e1 : k + 1 + m - 1 = k + (m + 1) - 1 := by omega
      have e2 : k + 1 + m = k + (m + 1) := by omega
      rw [e1, e2]

/-- C9: a Repeat decorator with count n ≥ 1 and a present child ticks the
child at most n times; if the first `Running`-or-`Invalid` outcome appears
at call i < n it is returned at once after exactly i+1 ticks; and if none of
the n outcomes is `Running` or `Invalid` the child is ticked exactly n times
and the n-th outcome is returned. -/
theorem repeat_decorator_claim (n : Nat) (child : Nat → Status) (hn : 1 ≤ n) :
    (RepeatDecoratorNode.tick n (some child)).2 ≤ n
    ∧ (∀ i, i < n →
        (child i = Status.Running ∨ child i = Status.Invalid) →
        (∀ j, j < i → ¬(child j = Status.Running ∨ child j = Status.Invalid)) →
        RepeatDecoratorNode.tick n (some child) = (child i, i + 1))
    ∧ ((∀ j, j < n → ¬(child j = Status.Running ∨ child j = Status.Invalid)) →
        RepeatDecoratorNode.tick n (some child) = (child (n - 1), n)) := by
  have _ := hn
  refine ⟨?_, ?_, ?_⟩
  · simpa [RepeatDecoratorNode.tick] using repeatLoop_count_le child n 0 Status.Invalid
  · intro i hi hbad hgood
    have h := repeatLoop_first_bad child i n 0 Status.Invalid hi
      (by simpa using hbad) (by intro j hj; simpa using hgood j hj)
    simpa [RepeatDecoratorNode.tick] using h
  · intro hgood
    have h := repeatLoop_all_good child n 0 Status.Invalid hn
      (by intro j hj; simpa using hgood j hj)
    simpa [RepeatDecoratorNode.tick] using h

/-- The child of the C9 witness: `Success, Success, Failure` on its first
three calls. -/
def repeatChild3 : Nat → Status :=
  fun k => if k = 2 then Status.Failure else Status.Success

/-- C9 witness: Repeat(3) over a child producing `Success, Success, Failure`
ticks exactly three times and returns the third call's `Failure`. -/
theorem repeat_decorator_claim_witness :
    RepeatDecoratorNode.tick 3 (some repeatChild3) = (Status.Failure, 3) :=
  (repeat_decorator_claim 3 repeatChild3 (by decide)).2.2 (by decide)

/-- C4: the latch procedure of `DecisionNode::tick`, started from the
cleared-latch state, at the claim's strategy shapes.  The first tick over
`[(Failure, a1), (Success, Running), (Success, a3)]` returns `Running`,
latches strategy 1, ticks only conditions 0 and 1 and only action 1 —
strategy 2's condition and action are untouched.  A latched tick whose
action outcome o is not `Running` ticks no condition and only that action,
returns o and clears the latch. -/
theorem decision_latch_claim (a1 a3 c1 c2 c3 b1 b3 o : Status)
    (ho : o ≠ Status.Running) :
    DecisionNode.tick
        [(Status.Failure, a1), (Status.Success, Status.Running), (Status.Success, a3)]
        none
      = (Status.Running, some 1, [0, 1], [1])
    ∧ DecisionNode.tick [(c1, b1), (c2, o), (c3, b3)] (some 1)
      = (o, none, [], [1]) := by
  constructor
  · rfl
  · show (o, if o = Status.Running then some 1 else none, ([] : List Nat), [1])
      = (o, none, [], [1])
    rw [if_neg ho]

/-- C4 witness: the two ticks at concrete outcomes (the latched action's
second-tick outcome is `Success`). -/
theorem decision_latch_claim_witness :
    DecisionNode.tick
        [(Status.Failure, Status.Success), (Status.Success, Status.Running),
          (Status.Success, Status.Failure)] none
      = (Status.Running, some 1, [0, 1], [1])
    ∧ DecisionNode.tick
        [(Status.Failure, Status.Success), (Status.Success, Status.Success),
          (Status.Success, Status.Failure)] (some 1)
      = (Status.Success, none, [], [1]) :=
  decision_latch_claim Status.Success Status.Failure Status.Failure Status.Success
    Status.Success Status.Success Status.Failure Status.Success (by decide)

/-- The fact store of C5's concrete example: the single fact y = "z". -/
def factStoreYZ : List Char → Option (List Char) :=
  fun s => if s = [ 'y' ] then some [ 'z' ] else none

/-- The active scope frame of C5's concrete example: \x7bx: "y"\x7d. -/
def scopeXY : List Char → Option (List Char) :=
  fun s => if s = [ 'x' ] then some [ 'y' ] else none

/-- The scope lookup of C5's failing example: no entry at all. -/
def scopeEmptyLookup : List Char → Option (List Char) :=
  fun _ => none

/-- C5: resolution of a token starting with `@` strips the marker,
recursively resolves the remainder, and on success performs exactly one
direct (non-recursive) `getFact` lookup of the intermediate name, failing
when either step misses — the first conjunct is the exact unfolding of the
`@` branch of `Blackboard::getFactRef`, including its lookup trace.
Concretely, "@#x" with scope frame x ↦ "y" and fact y = "z" resolves to
"z" with the single fact lookup "y"; and with a scope that lacks x it fails
with an empty lookup trace, whatever the fact store holds. -/
theorem getFactRef_indirection_claim :
    (∀ (gf sv : List Char → Option (List Char)) (n : Nat) (rest : List Char),
      getFactRefT gf sv (n + 1) ('@' :: rest)
        = match getFactRefT gf sv n rest with
          | (none, trail) => (none, trail)
          | (some none, trail) => (some none, trail)
          | (some (some temp), trail) =>
            match gf temp with
            | none => (some none, trail ++ [temp])
            | some v => (some (some v), trail ++ [temp]))
    ∧ getFactRefT factStoreYZ scopeXY 3 [ '@', '#', 'x' ]
        = (some (some [ 'z' ]), [[ 'y' ]])
    ∧ (∀ gf : List Char → Option (List Char),
        getFactRefT gf scopeEmptyLookup 3 [ '@', '#', 'x' ] = (some none, [])) := by
  refine ⟨fun gf sv n rest => rfl, rfl, fun gf => rfl⟩

/-- C6: balance of `ScopeNode::tick`.  With a child whose tick preserves the
scope-stack depth: every tick that returns leaves the depth unchanged,
whatever the child's outcome; a failed parameter resolution returns
`Invalid` with the stack untouched for any child (so no frame was pushed and
the child was not ticked); and a successful resolution runs the child on
exactly one pushed frame and pops exactly one frame afterwards. -/
theorem scope_tick_claim (gf : List Char → Option (List Char)) (fuel : Nat)
    (params : List (List Char × List Char))
    (child : List Frame → Status × List Frame) (stack : List Frame)
    (hchild : ∀ st, ((child st).2).length = st.length) :
    (∀ r st2, ScopeNode.tick gf fuel params child stack = some (r, st2) →
      st2.length = stack.length)
    ∧ (resolveParams gf (Tree.getScopedVar stack) fuel params = some none →
        ∀ child2 : List Frame → Status × List Frame,
          ScopeNode.tick gf fuel params child2 stack = some (Status.Invalid, stack))
    ∧ (∀ f : Frame,
        resolveParams gf (Tree.getScopedVar stack) fuel params = some (some f) →
        ScopeNode.tick gf fuel params child stack
          = some ((child (f :: stack)).1, ((child (f :: stack)).2).tail)
        ∧ ((child (f :: stack)).2).tail.length = stack.length) := by
  refine ⟨?_, ?_, ?_⟩
  · intro r st2 h
    unfold ScopeNode.tick at h
    rcases hres : resolveParams gf (Tree.getScopedVar stack) fuel params
      with _ | _ | f
    · rw [hres] at h
      simp at h
    · rw [hres] at h
      simp at h
      rw [← h.2]
    · rw [hres] at h
      simp at h
      rw [← h.2, List.length_tail, hchild (f :: stack), List.length_cons]
      omega
  · intro hres child2
    unfold ScopeNode.tick
    rw [hres]
  · intro f hres
    constructor
    · unfold ScopeNode.tick
      rw [hres]
    · rw [List.length_tail, hchild (f :: stack), List.length_cons]
      omega

/-- The fact-store stand-in of the C6 witness (never consulted: the single
parameter reference is a literal). -/
def scopeWitnessFacts : List Char → Option (List Char) :=
  fun _ => none

/-- The child of the C6 witness: returns `Invalid` and leaves the scope
stack as it found it. -/
def scopeWitnessChild : List Frame → Status × List Frame :=
  fun st => (Status.Invalid, st)

/-- C6 witness: a Scope node with the single parameter a ↦ "c" over the
depth-preserving child, ticked on the empty stack, returns the child's
`Invalid` with the stack depth back at zero. -/
theorem scope_tick_claim_witness :
    ScopeNode.tick scopeWitnessFacts 1 [([ 'a' ], [ 'c' ])] scopeWitnessChild []
      = some (Status.Invalid, []) :=
  ((scope_tick_claim scopeWitnessFacts 1 [([ 'a' ], [ 'c' ])] scopeWitnessChild []
      (fun _ => rfl)).2.2 [([ 'a' ], [ 'c' ])] rfl).1

end OfxAI.BehaviourTree

namespace OfxAI.BTVM

/-- Leaf 0 of the C8 program: always returns `Failure`. -/
def leafAlwaysFailure : VMBlackboard → VMStatus × VMBlackboard :=
  fun b => (VMStatus.Failure, b)

/-- Leaf 1 of the C8 program: always returns `Success`. -/
def leafAlwaysSuccess : VMBlackboard → VMStatus × VMBlackboard :=
  fun b => (VMStatus.Success, b)

/-- The C8 VM: program `run(leaf 0); bra_f(+4); run(leaf 1)` — cells
`[0, 0, 3, 4, 0, 1]` with opcodes run = 0 and bra_f = 3 — one thread at
pc 0, empty blackboard and string table. -/
def vmBranchExample : BehaviorTreeVM :=
  { program := [0, 0, 3, 4, 0, 1]
  , leaves := [leafAlwaysFailure, leafAlwaysSuccess]
  , stringTable := []
  , blackboard := ⟨[]⟩
  , threads := [{ pc := 0, threadStart := 0, current := VMStatus.Invalid }] }

/-- One `step` of thread 0, keeping the updated VM: fuel 1 is enough for
any instruction but `run_thr`, which this program does not use. -/
def stepThread0 (vm : BehaviorTreeVM) : Option BehaviorTreeVM :=
  (progEval 1 vm 0).map (fun r => r.2.1)

/-- C8: stepping the `run(leaf 0)` instruction (leaf 0 returns `Failure`)
and then the `bra_f(+4)` instruction leaves pc at 4, not at the branch
target 6 the claim requires: `eval` begins by resetting `thread.m_current`
to `Invalid` (ofxBehaviourTreeVM.cpp line 48), so the branch test at line 88
never sees the `Failure` and the branch is not taken.  The next step then
invokes leaf 1, which the claim says is skipped. -/
theorem vm_branch_after_failure_not_taken :
    ((stepThread0 vmBranchExample).bind stepThread0).bind
        (fun vm => (vm.threads.get? 0).map VMThread.pc)
      = some 4
    ∧ ((stepThread0 vmBranchExample).bind stepThread0).bind
        (fun vm => (progEval 1 vm 0).map (fun r => r.2.2))
      = some [1] := by
  constructor <;> rfl

end OfxAI.BTVM

namespace OfxAI.UtilityAI

theorem selScan_spec {α : Type} :
    ∀ (qs : List (Qualifier × α)) (i : Nat) (chIdx : Option Nat)
      (chosen : Qualifier × α) (best : Int),
      (selScan qs i chIdx chosen best = (chIdx, chosen, best)
        ∧ ∀ p ∈ qs, p.1.score ≤ best)
      ∨ (∃ l₁ p l₂, qs = l₁ ++ p :: l₂
          ∧ selScan qs i chIdx chosen best = (some (i + l₁.length), p, p.1.score)
          ∧ best < p.1.score
          ∧ (∀ q ∈ l₁, q.1.score < p.1.score)
          ∧ (∀ q ∈ l₂, q.1.score ≤ p.1.score)) := by
  intro qs
  induction qs with
  | nil =>
    intro i chIdx chosen best
    left
    exact ⟨rfl, by simp⟩
  | cons p rest ih =>
    intro i chIdx chosen best
    by_cases hb : best < p.1.score
    · rcases ih (i + 1) (some i) p p.1.score with ⟨heq, hall⟩ |
        ⟨l₁, q, l₂, hsplit, heq, hlt, hl₁, hl₂⟩
      · right
        refine ⟨[], p, rest, by simp, ?_, hb, by simp, hall⟩
        simp only [selScan]
        rw [if_pos hb, heq]
        simp
      · right
        refine ⟨p :: l₁, q, l₂, by rw [hsplit, List.cons_append], ?_, lt_trans hb hlt, ?_, hl₂⟩
        · simp only [selScan]
          rw [if_pos hb, heq]
          have e : i + 1 + l₁.length = i + (p :: l₁).length := by
            rw [List.length_cons]
            omega
          rw [e]
        · intro x hx
          rcases List.mem_cons.mp hx with h | h
          · rw [h]; exact hlt
          · exact hl₁ x h
    · have hble : p.1.score ≤ best := not_lt.mp hb
      rcases ih (i + 1) chIdx chosen best with ⟨heq, hall⟩ |
        ⟨l₁, q, l₂, hsplit, heq, hlt, hl₁, hl₂⟩
      · left
        constructor
        · simp only [selScan]
          rw [if_neg hb]
          exact heq
        · intro x hx
          rcases List.mem_cons.mp hx with h | h
          · rw [h]; exact hble
          · exact hall x h
      · right
        refine ⟨p :: l₁, q, l₂, by rw [hsplit, List.cons_append], ?_, hlt, ?_, hl₂⟩
        · simp only [selScan]
          rw [if_neg hb, heq]
          have e : i + 1 + l₁.length = i + (p :: l₁).length := by
            rw [List.length_cons]
            omega
          rw [e]
        · intro x hx
          rcases List.mem_cons.mp hx with h | h
          · rw [h]; exact lt_of_le_of_lt hble hlt
          · exact hl₁ x h

/-- C10: one evaluation of a utility-AI Selector invokes exactly one action.
The scan walks the qualifiers in declaration order starting from the default
qualifier's threshold as the best score, and a qualifier only takes over on
a strictly greater score, so: when no qualifier is chosen the default action
is performed and every qualifier scored at most the default threshold; and
when qualifier j is chosen, it strictly out-scores the default threshold and
every earlier qualifier (an earlier tie would have kept the earlier choice)
and is at least as high as every later one, and its action is performed. -/
theorem utility_selector_eval_claim {α : Type} (s : Selector α) :
    s.evalInvoked.length = 1
    ∧ (s.evalChosenIdx = none →
        s.eval = s.defaultAction.2
        ∧ ∀ p ∈ s.qualifiers, p.1.score ≤ s.defaultAction.1.threshold)
    ∧ (∀ j, s.evalChosenIdx = some j →
        ∃ l₁ p l₂, s.qualifiers = l₁ ++ p :: l₂
          ∧ j = l₁.length
          ∧ s.eval = p.2
          ∧ s.defaultAction.1.threshold < p.1.score
          ∧ (∀ q ∈ l₁, q.1.score < p.1.score)
          ∧ (∀ q ∈ l₂, q.1.score ≤ p.1.score)) := by
  have h := selScan_spec s.qualifiers 0 none s.defaultAction
    s.defaultAction.1.threshold
  refine ⟨rfl, ?_, ?_⟩
  · intro hnone
    rcases h with ⟨heq, hall⟩ | ⟨l₁, p, l₂, hsplit, heq, hlt, hl₁, hl₂⟩
    · constructor
      · unfold Selector.eval
        rw [heq]
      · exact hall
    · exfalso
      unfold Selector.evalChosenIdx at hnone
      rw [heq] at hnone
      simp at hnone
  · intro j hj
    rcases h with ⟨heq, hall⟩ | ⟨l₁, p, l₂, hsplit, heq, hlt, hl₁, hl₂⟩
    · exfalso
      unfold Selector.evalChosenIdx at hj
      rw [heq] at hj
      simp at hj
    · refine ⟨l₁, p, l₂, hsplit, ?_, ?_, hlt, hl₁, hl₂⟩
      · unfold Selector.evalChosenIdx at hj
        rw [heq] at hj
        simp at hj
        omega
      · unfold Selector.eval
        rw [heq]

/-- A qualifier with a fixed score, for the C10 witness. -/
def fixedQualifier (t : Int) : Qualifier :=
  { qtype := QualifierType.FixedScore, threshold := t, scorers := [] }

/-- The C10 witness Selector: qualifiers scoring 5, 5 and 3 over actions
1, 2 and 3, and a default action 0 with threshold 0. -/
def tieSelector : Selector Nat :=
  { qualifiers := [(fixedQualifier 5, 1), (fixedQualifier 5, 2), (fixedQualifier 3, 3)]
  , defaultAction := (fixedQualifier 0, 0) }

/-- C10 witness: exactly one action is invoked, and on the 5-5 tie the
earlier qualifier's action (1) is the one performed. -/
theorem utility_selector_eval_claim_witness :
    tieSelector.evalInvoked.length = 1 ∧ tieSelector.eval = 1 :=
  ⟨(utility_selector_eval_claim tieSelector).1, rfl⟩

end OfxAI.UtilityAI
